import Mathlib

/-!
Verification of the code-execution sandbox of the graphing-app backend
(`backend/app/services/code_executor.py`): the validator (`validate_code`),
the output-normalization stage of `execute_code`, and the graph coercion
`convert_to_graph_schema`.

JSON values produced by `json.loads` are modelled by the inductive `JVal`;
Python floats are modelled exactly by rationals (`Rat`), which is faithful
for every value these claims touch (small integers and defaults, no
rounding involved).  Python exceptions raised by `float()` / `int()` are
modelled by `Except String`.  Host primitives (the Python parser `ast.parse`
and `json.loads`) enter as explicit parameters of the pipeline functions.
-/

/-- A JSON value as returned by `json.loads`: `None`, `bool`, `int`,
`float` (modelled by `Rat`), `str`, list, or string-keyed dict
(ordered association list, first occurrence wins on lookup). -/
inductive JVal where
  | null
  | bool (b : Bool)
  | int (n : Int)
  | float (q : Rat)
  | str (s : String)
  | list (xs : List JVal)
  | dict (kvs : List (String × JVal))


/-- Python `d.get(k)` on a dict: first entry with the given key. -/
def jget : List (String × JVal) → String → Option JVal
  | [], _ => none
  | kv :: rest, k => if kv.1 = k then some kv.2 else jget rest k

/-- Characters stripped by Python `str.strip()`. -/
def isPySpace (c : Char) : Bool :=
  c = ' ' || c = '\t' || c = '\n' || c = '\r' || c = '\x0b' || c = '\x0c'

/-- Strip leading and trailing whitespace from a character list. -/
def stripChars (l : List Char) : List Char :=
  ((l.dropWhile isPySpace).reverse.dropWhile isPySpace).reverse

/-- Python `str.strip()`. -/
def pyStrip (s : String) : String := String.mk (stripChars s.data)

/-- Split a character list on a separator, Python `str.split(sep)` style:
the empty list yields `[[]]`, and separators at the ends yield empty parts. -/
def splitOnChar (sep : Char) : List Char → List (List Char)
  | [] => [[]]
  | c :: cs =>
    let r := splitOnChar sep cs
    if c = sep then [] :: r
    else
      match r with
      | [] => [[c]]
      | h :: t => (c :: h) :: t

/-- Python `s.split(chr)` for a one-character separator. -/
def splitLines (s : String) : List String := (splitOnChar '\n' s.data).map String.mk

/-- Whether `needle` is a prefix of `hay` (on character lists). -/
def listStarts : List Char → List Char → Bool
  | [], _ => true
  | _ :: _, [] => false
  | a :: as, b :: bs => a = b && listStarts as bs

/-- Whether `needle` occurs as a contiguous sublist of the second list:
Python `needle in hay` on strings. -/
def listOccurs (needle : List Char) : List Char → Bool
  | [] => needle.isEmpty
  | c :: cs => listStarts needle (c :: cs) || listOccurs needle cs

/-- Python `str.lower()` (ASCII case folding, which covers the entire
denylist since every blocked token is ASCII). -/
def pyLower (s : String) : String := String.mk (s.data.map Char.toLower)

/-- Python `needle in hay` on strings. -/
def strIn (needle hay : String) : Bool := listOccurs needle.data hay.data

/-- One step of the denylist scan: `keyword.lower() in code.lower()`. -/
def tokenMatches (kw code : String) : Bool := strIn (pyLower kw) (pyLower code)

/-- Truncation of a rational toward zero, the behaviour of Python
`int(float)`. -/
def ratTrunc (q : Rat) : Int := if 0 ≤ q then q.floor else -((-q).floor)

/-- Numeric value of a digit list (caller checks digit-ness). -/
def digitsVal (l : List Char) : Nat := l.foldl (fun a c => a * 10 + (c.toNat - 48)) 0

/-- A non-empty all-digit character list. -/
def allDigits (l : List Char) : Bool := !l.isEmpty && l.all Char.isDigit

/-- Python `int(str)`: optional sign followed by digits (the model covers
plain decimal literals; exotic forms such as underscores are out of scope
for the claims, which never rely on string-typed numeric fields). -/
def parsePyNumI (s : String) : Option Int :=
  match stripChars s.data with
  | '-' :: rest => if allDigits rest then some (-(digitsVal rest : Int)) else none
  | '+' :: rest => if allDigits rest then some ((digitsVal rest : Int)) else none
  | l => if allDigits l then some ((digitsVal l : Int)) else none

/-- Unsigned decimal (with optional fractional part) as an exact rational. -/
def parseUnsignedF (l : List Char) : Option Rat :=
  match splitOnChar '.' l with
  | [ip] => if allDigits ip then some ((digitsVal ip : Nat) : Rat) else none
  | [ip, fp] =>
    if (ip.all Char.isDigit && fp.all Char.isDigit) && !(ip.isEmpty && fp.isEmpty) then
      some (mkRat ((digitsVal ip) * 10 ^ fp.length + digitsVal fp : Int) (10 ^ fp.length))
    else none
  | _ => none

/-- Python `float(str)` on plain decimal forms. -/
def parsePyNumF (s : String) : Option Rat :=
  match stripChars s.data with
  | '-' :: rest => (parseUnsignedF rest).map (fun q => -q)
  | '+' :: rest => parseUnsignedF rest
  | l => parseUnsignedF l

/-- Python `float(v)` on a JSON value: numbers and bools convert, numeric
strings parse, everything else raises (`none`). -/
def pyFloat : JVal → Option Rat
  | .bool b => some (if b then 1 else 0)
  | .int n => some ((n : Int) : Rat)
  | .float q => some q
  | .str s => parsePyNumF s
  | _ => none

/-- Python `int(v)` on a JSON value: ints and bools convert, floats
truncate toward zero, integer strings parse, everything else raises. -/
def pyInt : JVal → Option Int
  | .bool b => some (if b then 1 else 0)
  | .int n => some n
  | .float q => some (ratTrunc q)
  | .str s => parsePyNumI s
  | _ => none

/-- Python truthiness `bool(v)`; total, never raises. -/
def pyTruthy : JVal → Bool
  | .null => false
  | .bool b => b
  | .int n => n != 0
  | .float q => q != 0
  | .str s => !s.data.isEmpty
  | .list xs => !xs.isEmpty
  | .dict kvs => !kvs.isEmpty

/-- Message of the exception raised by a failing `float()` call. -/
def floatErrMsg : String := "TypeError: float() argument must be a number"

/-- Message of the exception raised by a failing `int()` call. -/
def intErrMsg : String := "TypeError: int() argument must be a number"

/-- `float(v)` with the exception made explicit. -/
def pyFloatE (v : JVal) : Except String Rat :=
  match pyFloat v with
  | some q => .ok q
  | none => .error floatErrMsg

/-- `int(v)` with the exception made explicit. -/
def pyIntE (v : JVal) : Except String Int :=
  match pyInt v with
  | some n => .ok n
  | none => .error intErrMsg

/-- Python `for x in v`: lists iterate their elements, strings their
one-character substrings, dicts their keys; every other value raises
`TypeError`. -/
def pyIter : JVal → Except String (List JVal)
  | .list xs => .ok xs
  | .str s => .ok (s.data.map fun c => .str (String.mk [c]))
  | .dict kvs => .ok (kvs.map fun kv => .str kv.1)
  | _ => .error "TypeError: object is not iterable"

/-- One normalized node record as built by `convert_to_graph_schema`.
`extra_data = none` models the sequence-form branch, whose dict has no
`extra_data` key at all. -/
structure NodeDraft where
  label : JVal
  x : Rat
  y : Rat
  z : Rat
  color : JVal
  size : Rat
  extra_data : Option JVal


/-- One normalized edge record as built by `convert_to_graph_schema`. -/
structure EdgeDraft where
  source_id : Int
  target_id : Int
  weight : Rat
  directed : Bool
  color : JVal
  extra_data : Option JVal


/-- The dict returned by `convert_to_graph_schema`. -/
structure GraphSchema where
  name : String
  nodes : List NodeDraft
  edges : List EdgeDraft


/-- `float(node_data[k]) if len(node_data) > k else 0.0` for a
sequence-form node. -/
def seqCoord (xs : List JVal) (k : Nat) : Except String Rat :=
  match xs[k]? with
  | some e => pyFloatE e
  | none => .ok 0

/-- Coercion of one element of the `nodes` sequence (loop body of the node
loop of `convert_to_graph_schema`, 0-based index `i`). -/
def coerceNode (i : Nat) (v : JVal) : Except String NodeDraft :=
  match v with
  | .dict kvs =>
    match pyFloatE ((jget kvs "x").getD (.float 0)) with
    | .error e => .error e
    | .ok x =>
      match pyFloatE ((jget kvs "y").getD (.float 0)) with
      | .error e => .error e
      | .ok y =>
        match pyFloatE ((jget kvs "z").getD (.float 0)) with
        | .error e => .error e
        | .ok z =>
          match pyFloatE ((jget kvs "size").getD (.float 1)) with
          | .error e => .error e
          | .ok size =>
            .ok { label := (jget kvs "label").getD (.str ("Node " ++ toString (i + 1))),
                  x := x, y := y, z := z,
                  color := (jget kvs "color").getD (.str "#3498db"),
                  size := size,
                  extra_data := some ((jget kvs "extra_data").getD .null) }
  | .list xs =>
    match seqCoord xs 0 with
    | .error e => .error e
    | .ok x =>
      match seqCoord xs 1 with
      | .error e => .error e
      | .ok y =>
        match seqCoord xs 2 with
        | .error e => .error e
        | .ok z =>
          .ok { label := .str ("Node " ++ toString (i + 1)),
                x := x, y := y, z := z,
                color := .str "#3498db", size := 1, extra_data := none }
  | _ =>
    .ok { label := .str ("Node " ++ toString (i + 1)),
          x := 0, y := 0, z := 0,
          color := .str "#3498db", size := 1, extra_data := none }

/-- The node loop: coerces every element in order. -/
def coerceNodes (i : Nat) : List JVal → Except String (List NodeDraft)
  | [] => .ok []
  | v :: vs =>
    match coerceNode i v with
    | .error e => .error e
    | .ok n =>
      match coerceNodes (i + 1) vs with
      | .error e => .error e
      | .ok rest => .ok (n :: rest)

/-- Coercion of one element of the `edges` sequence: dict form reads named
fields with defaults, a sequence of length at least 2 is read positionally,
any other shape is skipped (`ok none`, the `continue` branch). -/
def coerceEdge (v : JVal) : Except String (Option EdgeDraft) :=
  match v with
  | .dict kvs =>
    match pyIntE ((jget kvs "source_id").getD (.int 0)) with
    | .error e => .error e
    | .ok s =>
      match pyIntE ((jget kvs "target_id").getD (.int 0)) with
      | .error e => .error e
      | .ok t =>
        match pyFloatE ((jget kvs "weight").getD (.float 1)) with
        | .error e => .error e
        | .ok w =>
          .ok (some { source_id := s, target_id := t, weight := w,
                      directed := pyTruthy ((jget kvs "directed").getD (.bool false)),
                      color := (jget kvs "color").getD (.str "#95a5a6"),
                      extra_data := some ((jget kvs "extra_data").getD .null) })
  | .list (a :: b :: rest) =>
    match pyIntE a with
    | .error e => .error e
    | .ok s =>
      match pyIntE b with
      | .error e => .error e
      | .ok t =>
        match (match rest with | c :: _ => pyFloatE c | [] => .ok 1) with
        | .error e => .error e
        | .ok w =>
          .ok (some { source_id := s, target_id := t, weight := w,
                      directed := false, color := .str "#95a5a6", extra_data := none })
  | _ => .ok none

/-- The edge loop: coerce each element, then keep it only when both indices
lie in `[0, numNodes)` (the range filter of lines 258-260). -/
def coerceEdges (numNodes : Nat) : List JVal → Except String (List EdgeDraft)
  | [] => .ok []
  | v :: vs =>
    match coerceEdge v with
    | .error e => .error e
    | .ok o =>
      match coerceEdges numNodes vs with
      | .error e => .error e
      | .ok rest =>
        match o with
        | some e =>
          if 0 ≤ e.source_id ∧ e.source_id < (numNodes : Int) ∧
             0 ≤ e.target_id ∧ e.target_id < (numNodes : Int) then
            .ok (e :: rest)
          else .ok rest
        | none => .ok rest

/-- `CodeExecutor.convert_to_graph_schema`: processes the `nodes` sequence,
then the `edges` sequence (missing keys default to empty lists), and
returns the named graph dict.  A `TypeError`/`ValueError` raised anywhere
inside propagates as `error`. -/
def convert_to_graph_schema (graph_name : String) (graph_data : List (String × JVal)) :
    Except String GraphSchema :=
  match pyIter ((jget graph_data "nodes").getD (.list [])) with
  | .error e => .error e
  | .ok nodesRaw =>
    match coerceNodes 0 nodesRaw with
    | .error e => .error e
    | .ok nodes =>
      match pyIter ((jget graph_data "edges").getD (.list [])) with
      | .error e => .error e
      | .ok edgesRaw =>
        match coerceEdges nodes.length edgesRaw with
        | .error e => .error e
        | .ok edges => .ok { name := graph_name, nodes := nodes, edges := edges }

/-- `CodeExecutor.ALLOWED_IMPORTS`. -/
def ALLOWED_IMPORTS : List String :=
  ["networkx", "nx", "numpy", "np", "math", "random", "json"]

/-- `CodeExecutor.BLOCKED_KEYWORDS`, in source order. -/
def BLOCKED_KEYWORDS : List String :=
  ["import os", "import sys", "import subprocess", "import __builtin__",
   "import builtins", "__import__", "eval(", "exec(", "open(", "file(",
   "input(", "raw_input("]

/-- The first denylisted keyword (in list order) whose lowercased text
occurs in the lowercased source: the loop of lines 50-53. -/
def firstBlocked (code : String) : Option String :=
  BLOCKED_KEYWORDS.find? (fun kw => tokenMatches kw code)

/-- An import statement as seen by walking the parsed tree:
`imp names` is `import a.b as x, c.d` (the full dotted `alias.name`s, in
order), `impFrom m` is `from m import ...` where `m = none` models a
relative import (`node.module is None`). -/
inductive ImportStmt where
  | imp (names : List String)
  | impFrom (module : Option String)

/-- Result of the host-language parser `ast.parse` on the submitted
source: a syntax-error message or the import statements in `ast.walk`
order.  The Python parser is a host primitive, so it enters the model as
data rather than as a function of the source string. -/
abbrev ParseResult := Except String (List ImportStmt)

/-- `m.split(".")[0]`: the top-level component of a dotted module path. -/
def topLevel (m : String) : String := String.mk (m.data.takeWhile (fun c => c ≠ '.'))

/-- The import allow-list walk of lines 62-70: a plain import is checked by
the full `alias.name`, a from-import by the top-level component of
`node.module`; rejection happens at the first offending statement. -/
def checkImports : List ImportStmt → Option String
  | [] => none
  | .imp names :: rest =>
    match names.find? (fun n => !(ALLOWED_IMPORTS.contains n)) with
    | some n => some ("Import not allowed: " ++ n)
    | none => checkImports rest
  | .impFrom none :: rest => checkImports rest
  | .impFrom (some m) :: rest =>
    if ALLOWED_IMPORTS.contains (topLevel m) then checkImports rest
    else some ("Import not allowed: " ++ m)

/-- The validator's verdict. -/
inductive Verdict where
  | accepted
  | rejected (reason : String)

/-- `CodeExecutor.validate_code`: denylist scan, then syntax check, then
the import allow-list walk, short-circuiting in that order. -/
def validate_code (code : String) (parse : ParseResult) : Verdict :=
  match firstBlocked code with
  | some kw => .rejected ("Blocked operation detected: " ++ kw)
  | none =>
    match parse with
    | .error e => .rejected ("Syntax error: " ++ e)
    | .ok imports =>
      match checkImports imports with
      | some reason => .rejected reason
      | none => .accepted

/-- What `execute_code` does before anything touches the file system:
`reject r` models the early return of lines 97-99, `spawn` the whole
temporary-file / subprocess block that follows (lines 101-152).  A
`reject` result therefore means no temporary file is created and no
process is spawned. -/
inductive ExecAction where
  | reject (reason : String)
  | spawn

/-- The validation gate at the top of `CodeExecutor.execute_code`. -/
def execute_code_gate (code : String) (parse : ParseResult) : ExecAction :=
  match validate_code code parse with
  | .rejected r => .reject r
  | .accepted => .spawn

/-- Whether a (stripped) line starts the JSON payload:
`line.startswith("\x7b") or line.startswith("[")`. -/
def beginsJson (l : String) : Bool :=
  match l.data with
  | [] => false
  | c :: _ => c = '\x7b' || c = '['

/-- Lines 163-170 of `execute_code`: scan the lines of the stripped output
from the last one backward and return the first stripped line that begins
with a brace or bracket. -/
def extract_json_line (output : String) : Option String :=
  ((splitLines output).reverse.find? (fun l => beginsJson (pyStrip l))).map pyStrip

/-- Result of the normalization stage: `ok` carries the parsed graph dict
that `execute_code` returns as `(True, graph_data, None)`, `err` one of its
`(False, None, msg)` returns. -/
inductive NormResult where
  | ok (g : JVal)
  | err (msg : String)

/-- Lines 158-190 of `execute_code`, the `Success(stdout)` normalization:
strip the captured stdout, refuse empty output, pick the JSON payload line
(falling back to the whole stripped output), parse it with the host JSON
parser `jsonParse` (`json.loads`), and check the outer shape.  The shape
check of lines 181-185 errors when the value is not a dict or when either
the `nodes` key or the `edges` key is missing. -/
def normalize_success (jsonParse : String → Except String JVal) (stdout : String) : NormResult :=
  if pyStrip stdout = "" then .err "No output from code execution"
  else
    match jsonParse ((extract_json_line (pyStrip stdout)).getD (pyStrip stdout)) with
    | .error e => .err ("Failed to parse output as JSON: " ++ e)
    | .ok v =>
      match v with
      | .dict kvs =>
        if (jget kvs "nodes").isSome && (jget kvs "edges").isSome then .ok v
        else .err "Result must contain \x27nodes\x27 and \x27edges\x27 keys"
      | _ => .err "Result must be a dictionary"

/-- Whether the value of field `k`, when present, survives `float()`. -/
def floatFieldOk (kvs : List (String × JVal)) (k : String) : Bool :=
  match jget kvs k with
  | none => true
  | some v => (pyFloat v).isSome

/-- Whether the value of field `k`, when present, survives `int()`. -/
def intFieldOk (kvs : List (String × JVal)) (k : String) : Bool :=
  match jget kvs k with
  | none => true
  | some v => (pyInt v).isSome

/-- Whether entry `k` of a sequence-form node, when present, survives
`float()`. -/
def seqCoordOk (xs : List JVal) (k : Nat) : Bool :=
  match xs[k]? with
  | none => true
  | some e => (pyFloat e).isSome

/-- A `nodes` element whose coercion cannot raise: every numeric field it
actually carries is `float()`-coercible. -/
def nodeOk : JVal → Bool
  | .dict kvs =>
    floatFieldOk kvs "x" && floatFieldOk kvs "y" && floatFieldOk kvs "z" &&
      floatFieldOk kvs "size"
  | .list xs => seqCoordOk xs 0 && seqCoordOk xs 1 && seqCoordOk xs 2
  | _ => true

/-- An `edges` element whose coercion cannot raise. -/
def edgeOk : JVal → Bool
  | .dict kvs =>
    intFieldOk kvs "source_id" && intFieldOk kvs "target_id" && floatFieldOk kvs "weight"
  | .list (a :: b :: rest) =>
    (pyInt a).isSome && (pyInt b).isSome &&
      (match rest with | c :: _ => (pyFloat c).isSome | [] => true)
  | _ => true

/-- An `edges` element that hits neither the dict branch nor the
length-two sequence branch, i.e. the `continue` shapes. -/
def edgeSkipShape : JVal → Bool
  | .dict _ => false
  | .list (_ :: _ :: _) => false
  | _ => true

/-- A `nodes` element that receives the generated label: not a dict, or a
dict without a `label` key. -/
def labelMissing : JVal → Bool
  | .dict kvs => (jget kvs "label").isNone
  | _ => true

/-- Spec-side acceptance predicate for one import statement, as the
allow-list walk actually keys it: full dotted name for plain imports,
top-level component for from-imports, relative from-imports always pass. -/
def importCheckSpec : ImportStmt → Bool
  | .imp names => names.all (fun n => ALLOWED_IMPORTS.contains n)
  | .impFrom none => true
  | .impFrom (some m) => ALLOWED_IMPORTS.contains (topLevel m)

/-- `find?` returns the first element satisfying the predicate. -/
theorem find_first_spec {α : Type} (p : α → Bool) :
    ∀ (l : List α) (x : α), l.find? p = some x →
      p x = true ∧ ∃ (i : Nat) (hi : i < l.length), l.get ⟨i, hi⟩ = x ∧
        ∀ (j : Nat) (hj : j < l.length), j < i → p (l.get ⟨j, hj⟩) = false := by
  intro l
  induction l with
  | nil => intro x h; simp [List.find?] at h
  | cons a as ih =>
    intro x h
    cases hpa : p a with
    | true =>
      rw [List.find?_cons_of_pos _ hpa] at h
      have hx : a = x := Option.some.inj h
      subst hx
      exact ⟨hpa, 0, by simp, rfl, fun j hj hj0 => absurd hj0 (Nat.not_lt_zero j)⟩
    | false =>
      rw [List.find?_cons_of_neg _ (by simp [hpa])] at h
      obtain ⟨hpx, i, hi, hget, hmin⟩ := ih x h
      refine ⟨hpx, i + 1, by simpa using Nat.succ_lt_succ hi, by simpa using hget, ?_⟩
      intro j hj hj1
      cases j with
      | zero => simpa using hpa
      | succ jj =>
        have := hmin jj (by omega) (by omega)
        simpa using this

/-- A satisfying member guarantees `find?` succeeds. -/
theorem find_first_exists {α : Type} (p : α → Bool) :
    ∀ (l : List α) (x : α), x ∈ l → p x = true → ∃ y, l.find? p = some y := by
  intro l
  induction l with
  | nil => intro x hx _; exact absurd hx (List.not_mem_nil x)
  | cons a as ih =>
    intro x hx hp
    cases hpa : p a with
    | true => exact ⟨a, List.find?_cons_of_pos _ hpa⟩
    | false =>
      rcases List.mem_cons.mp hx with rfl | hx2
      · rw [hpa] at hp; exact Bool.noConfusion hp
      · obtain ⟨y, hy⟩ := ih x hx2 hp
        exact ⟨y, by rw [List.find?_cons_of_neg _ (by simp [hpa]), hy]⟩

/-- A failed `find?` means no member satisfies the predicate. -/
theorem find_none_all {α : Type} (p : α → Bool) :
    ∀ (l : List α), l.find? p = none → ∀ y ∈ l, p y = false := by
  intro l
  induction l with
  | nil => intro _ y hy; exact absurd hy (List.not_mem_nil y)
  | cons a as ih =>
    intro h y hy
    cases hpa : p a with
    | true => rw [List.find?_cons_of_pos _ hpa] at h; exact Option.noConfusion h
    | false =>
      rw [List.find?_cons_of_neg _ (by simp [hpa])] at h
      rcases List.mem_cons.mp hy with rfl | hy2
      · exact hpa
      · exact ih h y hy2

/-- `find?` distributes over append, preferring the left part. -/
theorem find_append {α : Type} (p : α → Bool) :
    ∀ (l₁ l₂ : List α), (l₁ ++ l₂).find? p =
      (match l₁.find? p with | some x => some x | none => l₂.find? p) := by
  intro l₁ l₂
  induction l₁ with
  | nil => simp [List.find?]
  | cons a as ih =>
    cases hpa : p a with
    | true => simp [List.find?_cons_of_pos _ hpa]
    | false =>
      rw [List.cons_append, List.find?_cons_of_neg _ (by simp [hpa]),
          List.find?_cons_of_neg _ (by simp [hpa]), ih]

/-- Searching a reversed list finds the last satisfying element: the list
decomposes around the hit and everything after it fails the predicate. -/
theorem lastFind_spec {α : Type} (p : α → Bool) :
    ∀ (l : List α) (x : α), l.reverse.find? p = some x →
      p x = true ∧ ∃ as bs, l = as ++ x :: bs ∧ ∀ y ∈ bs, p y = false := by
  intro l
  induction l with
  | nil => intro x h; simp [List.find?] at h
  | cons a as ih =>
    intro x h
    rw [List.reverse_cons, find_append p as.reverse [a]] at h
    cases hf : as.reverse.find? p with
    | some y =>
      rw [hf] at h
      have hx : y = x := Option.some.inj h
      subst hx
      obtain ⟨hp, as1, bs1, heq, hbs⟩ := ih y hf
      exact ⟨hp, a :: as1, bs1, by rw [heq, List.cons_append], hbs⟩
    | none =>
      rw [hf] at h
      have hall := find_none_all p as.reverse hf
      cases hpa : p a with
      | true =>
        rw [List.find?_cons_of_pos _ hpa] at h
        have hx : a = x := Option.some.inj h
        subst hx
        exact ⟨hpa, [], as, rfl, fun y hy => hall y (List.mem_reverse.mpr hy)⟩
      | false =>
        rw [List.find?_cons_of_neg _ (by simp [hpa])] at h
        simp [List.find?] at h

/-- Every edge surviving the range filter of `coerceEdges` has both
indices in `[0, numNodes)`. -/
theorem coerceEdges_bounds (numNodes : Nat) :
    ∀ (vs : List JVal) (es : List EdgeDraft), coerceEdges numNodes vs = .ok es →
      ∀ e ∈ es, 0 ≤ e.source_id ∧ e.source_id < (numNodes : Int) ∧
        0 ≤ e.target_id ∧ e.target_id < (numNodes : Int) := by
  intro vs
  induction vs with
  | nil =>
    intro es h e he
    simp only [coerceEdges] at h
    cases h
    exact absurd he (List.not_mem_nil e)
  | cons v vs ih =>
    intro es h e he
    simp only [coerceEdges] at h
    cases hc : coerceEdge v with
    | error msg => rw [hc] at h; exact Except.noConfusion h
    | ok o =>
      rw [hc] at h
      cases hr : coerceEdges numNodes vs with
      | error msg => rw [hr] at h; exact Except.noConfusion h
      | ok rest =>
        rw [hr] at h
        cases o with
        | none =>
          cases h
          exact ih _ hr e he
        | some e0 =>
          dsimp only at h
          by_cases hb : 0 ≤ e0.source_id ∧ e0.source_id < (numNodes : Int) ∧
              0 ≤ e0.target_id ∧ e0.target_id < (numNodes : Int)
          · rw [if_pos hb] at h
            cases h
            rcases List.mem_cons.mp he with rfl | he2
            · exact hb
            · exact ih _ hr e he2
          · rw [if_neg hb] at h
            cases h
            exact ih _ hr e he

/-- The range filter itself never errors: if every element coerces, the
edge loop succeeds. -/
theorem coerceEdges_total (numNodes : Nat) :
    ∀ (vs : List JVal), (∀ v ∈ vs, ∃ r, coerceEdge v = .ok r) →
      ∃ es, coerceEdges numNodes vs = .ok es := by
  intro vs
  induction vs with
  | nil => exact fun _ => ⟨[], rfl⟩
  | cons v vs ih =>
    intro h
    obtain ⟨r, hr⟩ := h v (List.mem_cons_self v vs)
    obtain ⟨es, hes⟩ := ih (fun w hw => h w (List.mem_cons_of_mem v hw))
    cases r with
    | none => exact ⟨es, by simp only [coerceEdges]; rw [hr, hes]⟩
    | some e0 =>
      by_cases hb : 0 ≤ e0.source_id ∧ e0.source_id < (numNodes : Int) ∧
          0 ≤ e0.target_id ∧ e0.target_id < (numNodes : Int)
      · exact ⟨e0 :: es, by simp only [coerceEdges]; rw [hr, hes]; dsimp only; rw [if_pos hb]⟩
      · exact ⟨es, by simp only [coerceEdges]; rw [hr, hes]; dsimp only; rw [if_neg hb]⟩

/-- The node loop keeps one output node per input element, in order, each
produced by `coerceNode` at its own index. -/
theorem coerceNodes_spec :
    ∀ (vs : List JVal) (i : Nat) (out : List NodeDraft), coerceNodes i vs = .ok out →
      out.length = vs.length ∧
      ∀ (j : Nat) (hj : j < vs.length) (hg : j < out.length),
        coerceNode (i + j) (vs.get ⟨j, hj⟩) = .ok (out.get ⟨j, hg⟩) := by
  intro vs
  induction vs with
  | nil =>
    intro i out h
    simp only [coerceNodes] at h
    cases h
    exact ⟨rfl, fun j hj => absurd hj (Nat.not_lt_zero j)⟩
  | cons v vs ih =>
    intro i out h
    simp only [coerceNodes] at h
    cases hc : coerceNode i v with
    | error msg => rw [hc] at h; exact Except.noConfusion h
    | ok n =>
      rw [hc] at h
      cases hr : coerceNodes (i + 1) vs with
      | error msg => rw [hr] at h; exact Except.noConfusion h
      | ok rest =>
        rw [hr] at h
        cases h
        obtain ⟨hlen, hidx⟩ := ih (i + 1) rest hr
        refine ⟨by simp [hlen], ?_⟩
        intro j hj hg
        cases j with
        | zero => simpa using hc
        | succ jj =>
          have hjj : jj < vs.length := by simpa using hj
          have hgg : jj < rest.length := by simpa using hg
          have := hidx jj hjj hgg
          have harith : i + (jj + 1) = (i + 1) + jj := by omega
          simpa [harith] using this

/-- A coercible field value makes the guarded `float()` call succeed. -/
theorem floatField_ok_total (kvs : List (String × JVal)) (k : String) (d : Rat)
    (h : floatFieldOk kvs k = true) :
    ∃ q, pyFloatE ((jget kvs k).getD (.float d)) = .ok q := by
  unfold floatFieldOk at h
  cases hj : jget kvs k with
  | none => exact ⟨d, by simp [hj, pyFloatE, pyFloat]⟩
  | some v =>
    rw [hj] at h
    obtain ⟨q, hq⟩ := Option.isSome_iff_exists.mp h
    exact ⟨q, by simp [hj, pyFloatE, hq]⟩

/-- A coercible field value makes the guarded `int()` call succeed. -/
theorem intField_ok_total (kvs : List (String × JVal)) (k : String) (d : Int)
    (h : intFieldOk kvs k = true) :
    ∃ n, pyIntE ((jget kvs k).getD (.int d)) = .ok n := by
  unfold intFieldOk at h
  cases hj : jget kvs k with
  | none => exact ⟨d, by simp [hj, pyIntE, pyInt]⟩
  | some v =>
    rw [hj] at h
    obtain ⟨n, hn⟩ := Option.isSome_iff_exists.mp h
    exact ⟨n, by simp [hj, pyIntE, hn]⟩

/-- A coercible sequence entry makes the positional coordinate read
succeed. -/
theorem seqCoord_ok_total (xs : List JVal) (k : Nat) (h : seqCoordOk xs k = true) :
    ∃ q, seqCoord xs k = .ok q := by
  unfold seqCoordOk at h
  cases hj : xs[k]? with
  | none => exact ⟨0, by simp [seqCoord, hj]⟩
  | some e =>
    rw [hj] at h
    obtain ⟨q, hq⟩ := Option.isSome_iff_exists.mp h
    exact ⟨q, by simp [seqCoord, hj, pyFloatE, hq]⟩

/-- Node coercion succeeds on every `nodeOk` element. -/
theorem coerceNode_total (i : Nat) (v : JVal) (h : nodeOk v = true) :
    ∃ n, coerceNode i v = .ok n := by
  cases v with
  | dict kvs =>
    simp only [nodeOk, Bool.and_eq_true] at h
    obtain ⟨⟨⟨hx, hy⟩, hz⟩, hs⟩ := h
    obtain ⟨qx, hqx⟩ := floatField_ok_total kvs "x" 0 hx
    obtain ⟨qy, hqy⟩ := floatField_ok_total kvs "y" 0 hy
    obtain ⟨qz, hqz⟩ := floatField_ok_total kvs "z" 0 hz
    obtain ⟨qs, hqs⟩ := floatField_ok_total kvs "size" 1 hs
    exact ⟨_, by simp only [coerceNode]; rw [hqx, hqy, hqz, hqs]⟩
  | list xs =>
    simp only [nodeOk, Bool.and_eq_true] at h
    obtain ⟨⟨h0, h1⟩, h2⟩ := h
    obtain ⟨q0, hq0⟩ := seqCoord_ok_total xs 0 h0
    obtain ⟨q1, hq1⟩ := seqCoord_ok_total xs 1 h1
    obtain ⟨q2, hq2⟩ := seqCoord_ok_total xs 2 h2
    exact ⟨_, by simp only [coerceNode]; rw [hq0, hq1, hq2]⟩
  | null => exact ⟨_, rfl⟩
  | bool b => exact ⟨_, rfl⟩
  | int n => exact ⟨_, rfl⟩
  | float q => exact ⟨_, rfl⟩
  | str s => exact ⟨_, rfl⟩

/-- Edge coercion succeeds (possibly as a skip) on every `edgeOk`
element. -/
theorem coerceEdge_total (v : JVal) (h : edgeOk v = true) :
    ∃ r, coerceEdge v = .ok r := by
  cases v with
  | dict kvs =>
    simp only [edgeOk, Bool.and_eq_true] at h
    obtain ⟨⟨hs, ht⟩, hw⟩ := h
    obtain ⟨ns, hns⟩ := intField_ok_total kvs "source_id" 0 hs
    obtain ⟨nt, hnt⟩ := intField_ok_total kvs "target_id" 0 ht
    obtain ⟨qw, hqw⟩ := floatField_ok_total kvs "weight" 1 hw
    exact ⟨_, by simp only [coerceEdge]; rw [hns, hnt, hqw]⟩
  | list xs =>
    match xs with
    | [] => exact ⟨none, rfl⟩
    | [a] => exact ⟨none, rfl⟩
    | a :: b :: rest =>
      simp only [edgeOk, Bool.and_eq_true] at h
      obtain ⟨⟨ha, hb⟩, hr⟩ := h
      obtain ⟨na, hna⟩ := Option.isSome_iff_exists.mp ha
      obtain ⟨nb, hnb⟩ := Option.isSome_iff_exists.mp hb
      match rest with
      | [] =>
        exact ⟨_, by simp only [coerceEdge]; rw [show pyIntE a = .ok na by
          simp [pyIntE, hna], show pyIntE b = .ok nb by simp [pyIntE, hnb]]⟩
      | c :: cs =>
        obtain ⟨qc, hqc⟩ := Option.isSome_iff_exists.mp hr
        exact ⟨_, by simp only [coerceEdge]; rw [show pyIntE a = .ok na by
          simp [pyIntE, hna], show pyIntE b = .ok nb by simp [pyIntE, hnb],
          show pyFloatE c = .ok qc by simp [pyFloatE, hqc]]⟩
  | null => exact ⟨none, rfl⟩
  | bool b => exact ⟨none, rfl⟩
  | int n => exact ⟨none, rfl⟩
  | float q => exact ⟨none, rfl⟩
  | str s => exact ⟨none, rfl⟩

/-- The node loop succeeds on a list of `nodeOk` elements. -/
theorem coerceNodes_total :
    ∀ (vs : List JVal) (i : Nat), (∀ v ∈ vs, nodeOk v = true) →
      ∃ out, coerceNodes i vs = .ok out := by
  intro vs
  induction vs with
  | nil => exact fun _ _ => ⟨[], rfl⟩
  | cons v vs ih =>
    intro i h
    obtain ⟨n, hn⟩ := coerceNode_total i v (h v (List.mem_cons_self v vs))
    obtain ⟨rest, hrest⟩ := ih (i + 1) (fun w hw => h w (List.mem_cons_of_mem v hw))
    exact ⟨n :: rest, by simp only [coerceNodes]; rw [hn, hrest]⟩

/-- The allow-list walk accepts exactly the statement lists in which every
statement passes `importCheckSpec`. -/
theorem checkImports_none_iff :
    ∀ (l : List ImportStmt), checkImports l = none ↔ l.all importCheckSpec = true := by
  intro l
  induction l with
  | nil => simp [checkImports]
  | cons s rest ih =>
    cases s with
    | imp names =>
      cases hf : names.find? (fun n => !(ALLOWED_IMPORTS.contains n)) with
      | some n =>
        have hn := List.find?_some hf
        have hmem := List.mem_of_find?_eq_some hf
        simp only [checkImports, hf, List.all_cons]
        constructor
        · intro h; exact Option.noConfusion h
        · intro h
          rw [Bool.and_eq_true] at h
          obtain ⟨h1, _⟩ := h
          simp only [importCheckSpec] at h1
          have := List.all_eq_true.mp h1 n hmem
          rw [this] at hn
          exact Bool.noConfusion hn
      | none =>
        have hall : names.all (fun n => ALLOWED_IMPORTS.contains n) = true := by
          rw [List.all_eq_true]
          intro n hn
          have := find_none_all _ names hf n hn
          simpa using this
        simp only [checkImports, hf, List.all_cons, importCheckSpec, hall, Bool.true_and]
        exact ih
    | impFrom m =>
      cases m with
      | none => simpa [checkImports, importCheckSpec] using ih
      | some mm =>
        by_cases hc : ALLOWED_IMPORTS.contains (topLevel mm) = true
        · simp only [checkImports, if_pos hc, List.all_cons, importCheckSpec, hc, Bool.true_and]
          exact ih
        · simp only [checkImports, if_neg hc, List.all_cons, importCheckSpec]
          constructor
          · intro h; exact Option.noConfusion h
          · intro h
            rw [Bool.and_eq_true] at h
            exact absurd h.1 hc

/-- Every rejection reason of the allow-list walk has the
`Import not allowed` form. -/
theorem checkImports_some_form :
    ∀ (l : List ImportStmt) (r : String), checkImports l = some r →
      ∃ n, r = "Import not allowed: " ++ n := by
  intro l
  induction l with
  | nil => intro r h; exact Option.noConfusion h
  | cons s rest ih =>
    intro r h
    cases s with
    | imp names =>
      cases hf : names.find? (fun n => !(ALLOWED_IMPORTS.contains n)) with
      | some n =>
        rw [checkImports, hf] at h
        exact ⟨n, (Option.some.inj h).symm⟩
      | none =>
        rw [checkImports, hf] at h
        exact ih r h
    | impFrom m =>
      cases m with
      | none => exact ih r h
      | some mm =>
        by_cases hc : ALLOWED_IMPORTS.contains (topLevel mm) = true
        · rw [checkImports, if_pos hc] at h
          exact ih r h
        · rw [checkImports, if_neg hc] at h
          exact ⟨mm, (Option.some.inj h).symm⟩

/-- A node whose element carries no `label` field gets the generated
`Node <i+1>` label. -/
theorem coerceNode_label (i : Nat) (v : JVal) (n : NodeDraft)
    (h : coerceNode i v = .ok n) (hl : labelMissing v = true) :
    n.label = .str ("Node " ++ toString (i + 1)) := by
  cases v with
  | dict kvs =>
    simp only [labelMissing, Option.isNone_iff_eq_none] at hl
    cases hx : pyFloatE ((jget kvs "x").getD (.float 0)) with
    | error e => rw [coerceNode, hx] at h; exact Except.noConfusion h
    | ok qx =>
      cases hy : pyFloatE ((jget kvs "y").getD (.float 0)) with
      | error e => rw [coerceNode, hx, hy] at h; exact Except.noConfusion h
      | ok qy =>
        cases hz : pyFloatE ((jget kvs "z").getD (.float 0)) with
        | error e => rw [coerceNode, hx, hy, hz] at h; exact Except.noConfusion h
        | ok qz =>
          cases hs : pyFloatE ((jget kvs "size").getD (.float 1)) with
          | error e => rw [coerceNode, hx, hy, hz, hs] at h; exact Except.noConfusion h
          | ok qs =>
            rw [coerceNode, hx, hy, hz, hs] at h
            cases h
            simp [hl]
  | list xs =>
    cases h0 : seqCoord xs 0 with
    | error e => rw [coerceNode, h0] at h; exact Except.noConfusion h
    | ok q0 =>
      cases h1 : seqCoord xs 1 with
      | error e => rw [coerceNode, h0, h1] at h; exact Except.noConfusion h
      | ok q1 =>
        cases h2 : seqCoord xs 2 with
        | error e => rw [coerceNode, h0, h1, h2] at h; exact Except.noConfusion h
        | ok q2 =>
          rw [coerceNode, h0, h1, h2] at h
          cases h
          rfl
  | null => cases h; rfl
  | bool b => cases h; rfl
  | int m => cases h; rfl
  | float q => cases h; rfl
  | str s => cases h; rfl

/-- Inverting a successful `int()` call. -/
theorem pyIntE_ok (v : JVal) (n : Int) (h : pyIntE v = .ok n) : pyInt v = some n := by
  unfold pyIntE at h
  cases hp : pyInt v with
  | none => rw [hp] at h; exact Except.noConfusion h
  | some m =>
    rw [hp] at h
    dsimp only at h
    exact congrArg some (Except.ok.inj h)

/-- Inverting a successful `float()` call. -/
theorem pyFloatE_ok (v : JVal) (q : Rat) (h : pyFloatE v = .ok q) : pyFloat v = some q := by
  unfold pyFloatE at h
  cases hp : pyFloat v with
  | none => rw [hp] at h; exact Except.noConfusion h
  | some m =>
    rw [hp] at h
    dsimp only at h
    exact congrArg some (Except.ok.inj h)

/-- C1: every edge of a graph returned by `convert_to_graph_schema` has
both its source index and its target index in `[0, len(nodes))`, and the
range filter itself never raises: a coerced edge with out-of-range indices
is silently dropped, so edge coercion succeeds whenever every element
coerces, whatever the indices are. -/
theorem C1_edge_index_invariant :
    (∀ (name : String) (gd : List (String × JVal)) (g : GraphSchema),
        convert_to_graph_schema name gd = .ok g →
        ∀ e ∈ g.edges, 0 ≤ e.source_id ∧ e.source_id < (g.nodes.length : Int) ∧
          0 ≤ e.target_id ∧ e.target_id < (g.nodes.length : Int)) ∧
    (∀ (numNodes : Nat) (vs : List JVal),
        (∀ v ∈ vs, ∃ r, coerceEdge v = .ok r) → ∃ es, coerceEdges numNodes vs = .ok es) := by
  constructor
  · intro name gd g h e he
    unfold convert_to_graph_schema at h
    cases h1 : pyIter ((jget gd "nodes").getD (JVal.list [])) with
    | error m => rw [h1] at h; exact Except.noConfusion h
    | ok nodesRaw =>
      rw [h1] at h
      dsimp only at h
      cases h2 : coerceNodes 0 nodesRaw with
      | error m => rw [h2] at h; exact Except.noConfusion h
      | ok nodes =>
        rw [h2] at h
        dsimp only at h
        cases h3 : pyIter ((jget gd "edges").getD (JVal.list [])) with
        | error m => rw [h3] at h; exact Except.noConfusion h
        | ok edgesRaw =>
          rw [h3] at h
          dsimp only at h
          cases h4 : coerceEdges nodes.length edgesRaw with
          | error m => rw [h4] at h; exact Except.noConfusion h
          | ok edges =>
            rw [h4] at h
            cases h
            exact coerceEdges_bounds nodes.length edgesRaw edges h4 e he
  · exact coerceEdges_total

/-- C1 witness: a graph with one node and one out-of-range edge `[0, 5]`
normalizes to an empty edge list without error, and the edge loop succeeds
on that input. -/
theorem C1_edge_index_invariant_witness :
    (convert_to_graph_schema "g"
        [("nodes", JVal.list [JVal.null]),
         ("edges", JVal.list [JVal.list [JVal.int 0, JVal.int 5]])] =
      .ok { name := "g",
            nodes := [{ label := JVal.str "Node 1", x := 0, y := 0, z := 0,
                        color := JVal.str "#3498db", size := 1, extra_data := none }],
            edges := [] }) ∧
    (∀ e ∈ ({ name := "g",
              nodes := [{ label := JVal.str "Node 1", x := 0, y := 0, z := 0,
                          color := JVal.str "#3498db", size := 1, extra_data := none }],
              edges := [] } : GraphSchema).edges,
        0 ≤ e.source_id ∧ e.source_id < (1 : Int) ∧ 0 ≤ e.target_id ∧ e.target_id < (1 : Int)) ∧
    (∃ es, coerceEdges 1 [JVal.list [JVal.int 0, JVal.int 5]] = .ok es) := by
  have hconv : convert_to_graph_schema "g"
      [("nodes", JVal.list [JVal.null]),
       ("edges", JVal.list [JVal.list [JVal.int 0, JVal.int 5]])] =
      .ok { name := "g",
            nodes := [{ label := JVal.str "Node 1", x := 0, y := 0, z := 0,
                        color := JVal.str "#3498db", size := 1, extra_data := none }],
            edges := [] } := rfl
  refine ⟨hconv, C1_edge_index_invariant.1 "g" _ _ hconv, C1_edge_index_invariant.2 1 _ ?_⟩
  intro v hv
  rcases List.mem_singleton.mp hv with rfl
  exact ⟨some { source_id := 0, target_id := 5, weight := 1, directed := false,
                color := JVal.str "#95a5a6", extra_data := none }, rfl⟩

/-- C7: the canonical map-form result with one labeled node at the origin
and no edges normalizes to exactly that node with default color and size
and an empty edge sequence. -/
theorem C7_roundtrip_map_form :
    convert_to_graph_schema "AI Generated Graph"
      [("nodes", JVal.list [JVal.dict [("label", JVal.str "A"), ("x", JVal.int 0),
                                       ("y", JVal.int 0), ("z", JVal.int 0)]]),
       ("edges", JVal.list [])] =
    .ok { name := "AI Generated Graph",
          nodes := [{ label := JVal.str "A", x := 0, y := 0, z := 0,
                      color := JVal.str "#3498db", size := 1,
                      extra_data := some JVal.null }],
          edges := [] } := rfl

/-- Definitional shape of `coerceEdge` on the positional branch. -/
theorem coerceEdge_cons_eq (a b : JVal) (rest : List JVal) :
    coerceEdge (.list (a :: b :: rest)) =
      (match pyIntE a with
       | .error e => .error e
       | .ok s =>
         match pyIntE b with
         | .error e => .error e
         | .ok t =>
           match (match rest with | c :: _ => pyFloatE c | [] => .ok 1) with
           | .error e => .error e
           | .ok w => .ok (some { source_id := s, target_id := t, weight := w,
                                  directed := false, color := .str "#95a5a6",
                                  extra_data := none })) := rfl

/-- C8: the sequence-form scenario `nodes=[[1,2,3]], edges=[[0,0]]` yields
one generated-label node at `(1,2,3)` and one kept undirected self-loop
with default weight and color; in general a sequence edge of length at
least 2 is read positionally as `[source, target, optional weight]` with
`directed=false` and the default color, and any other-shaped edge element
is skipped without error. -/
theorem C8_sequence_form :
    (convert_to_graph_schema "AI Generated Graph"
        [("nodes", JVal.list [JVal.list [JVal.int 1, JVal.int 2, JVal.int 3]]),
         ("edges", JVal.list [JVal.list [JVal.int 0, JVal.int 0]])] =
      .ok { name := "AI Generated Graph",
            nodes := [{ label := JVal.str "Node 1", x := 1, y := 2, z := 3,
                        color := JVal.str "#3498db", size := 1, extra_data := none }],
            edges := [{ source_id := 0, target_id := 0, weight := 1, directed := false,
                        color := JVal.str "#95a5a6", extra_data := none }] }) ∧
    (∀ (a b : JVal) (rest : List JVal) (e : EdgeDraft),
        coerceEdge (.list (a :: b :: rest)) = .ok (some e) →
        pyInt a = some e.source_id ∧ pyInt b = some e.target_id ∧
        e.directed = false ∧ e.color = .str "#95a5a6" ∧
        (rest = [] → e.weight = 1) ∧
        (∀ (c : JVal) (cs : List JVal), rest = c :: cs → pyFloat c = some e.weight)) ∧
    (∀ v : JVal, edgeSkipShape v = true → coerceEdge v = .ok none) := by
  refine ⟨rfl, ?_, ?_⟩
  · intro a b rest e h
    rw [coerceEdge_cons_eq] at h
    cases hpa : pyIntE a with
    | error m => rw [hpa] at h; exact Except.noConfusion h
    | ok s =>
      rw [hpa] at h
      dsimp only at h
      cases hpb : pyIntE b with
      | error m => rw [hpb] at h; exact Except.noConfusion h
      | ok t =>
        rw [hpb] at h
        dsimp only at h
        cases rest with
        | nil =>
          dsimp only at h
          cases h
          exact ⟨pyIntE_ok a s hpa, pyIntE_ok b t hpb, rfl, rfl, fun _ => rfl,
                 fun c cs hcs => List.noConfusion hcs⟩
        | cons c cs =>
          dsimp only at h
          cases hpc : pyFloatE c with
          | error m =>
            rw [hpc] at h
            exact Except.noConfusion h
          | ok w =>
            rw [hpc] at h
            dsimp only at h
            cases h
            refine ⟨pyIntE_ok a s hpa, pyIntE_ok b t hpb, rfl, rfl, ?_, ?_⟩
            · intro habs; exact List.noConfusion habs
            · intro c2 cs2 hcc
              injection hcc with hc1 hc2
              subst hc1
              exact pyFloatE_ok c w hpc
  · intro v h
    cases v with
    | dict kvs => simp [edgeSkipShape] at h
    | list xs =>
      cases xs with
      | nil => rfl
      | cons a t =>
        cases t with
        | nil => rfl
        | cons b r => simp [edgeSkipShape] at h
    | null => rfl
    | bool b => rfl
    | int n => rfl
    | float q => rfl
    | str s => rfl

/-- C8 witness: a `null` edge element has the skip shape and is skipped
without error. -/
theorem C8_sequence_form_witness :
    edgeSkipShape JVal.null = true ∧ coerceEdge JVal.null = .ok none :=
  ⟨rfl, C8_sequence_form.2.2 JVal.null rfl⟩

/-- Definitional shape of `coerceEdge` on the dict branch. -/
theorem coerceEdge_dict_eq (kvs : List (String × JVal)) :
    coerceEdge (.dict kvs) =
      (match pyIntE ((jget kvs "source_id").getD (.int 0)) with
       | .error e => .error e
       | .ok s =>
         match pyIntE ((jget kvs "target_id").getD (.int 0)) with
         | .error e => .error e
         | .ok t =>
           match pyFloatE ((jget kvs "weight").getD (.float 1)) with
           | .error e => .error e
           | .ok w =>
             .ok (some { source_id := s, target_id := t, weight := w,
                         directed := pyTruthy ((jget kvs "directed").getD (.bool false)),
                         color := (jget kvs "color").getD (.str "#95a5a6"),
                         extra_data := some ((jget kvs "extra_data").getD .null) })) := rfl

/-- C10: normalization never drops nodes: the output node list has one
node per input element, in order, and every element that is not a dict (or
is a dict without a `label` key) gets the generated 1-based `Node <i>`
label. -/
theorem C10_nodes_preserved (name : String) (gd : List (String × JVal)) (g : GraphSchema)
    (ns : List JVal) (h : convert_to_graph_schema name gd = .ok g)
    (hn : pyIter ((jget gd "nodes").getD (.list [])) = .ok ns) :
    g.nodes.length = ns.length ∧
    ∀ (j : Nat) (hj : j < ns.length) (hg : j < g.nodes.length),
      coerceNode j (ns.get ⟨j, hj⟩) = .ok (g.nodes.get ⟨j, hg⟩) ∧
      (labelMissing (ns.get ⟨j, hj⟩) = true →
        (g.nodes.get ⟨j, hg⟩).label = .str ("Node " ++ toString (j + 1))) := by
  unfold convert_to_graph_schema at h
  rw [hn] at h
  dsimp only at h
  cases h2 : coerceNodes 0 ns with
  | error m => rw [h2] at h; exact Except.noConfusion h
  | ok nodes =>
    rw [h2] at h
    dsimp only at h
    cases h3 : pyIter ((jget gd "edges").getD (JVal.list [])) with
    | error m => rw [h3] at h; exact Except.noConfusion h
    | ok edgesRaw =>
      rw [h3] at h
      dsimp only at h
      cases h4 : coerceEdges nodes.length edgesRaw with
      | error m => rw [h4] at h; exact Except.noConfusion h
      | ok edges =>
        rw [h4] at h
        cases h
        obtain ⟨hlen, hidx⟩ := coerceNodes_spec ns 0 nodes h2
        refine ⟨hlen, ?_⟩
        intro j hj hg
        have hcn := hidx j hj hg
        rw [Nat.zero_add] at hcn
        exact ⟨hcn, fun hlm => coerceNode_label j _ _ hcn hlm⟩

/-- C10 witness: a one-element `nodes` list whose element is an empty
sequence yields exactly one node. -/
theorem C10_nodes_preserved_witness :
    (convert_to_graph_schema "g" [("nodes", JVal.list [JVal.list []])] =
        .ok { name := "g",
              nodes := [{ label := JVal.str "Node 1", x := 0, y := 0, z := 0,
                          color := JVal.str "#3498db", size := 1, extra_data := none }],
              edges := [] }) ∧
    ({ name := "g",
       nodes := [{ label := JVal.str "Node 1", x := 0, y := 0, z := 0,
                   color := JVal.str "#3498db", size := 1, extra_data := none }],
       edges := [] } : GraphSchema).nodes.length = [JVal.list []].length :=
  ⟨rfl, (C10_nodes_preserved "g" [("nodes", JVal.list [JVal.list []])]
    { name := "g",
      nodes := [{ label := JVal.str "Node 1", x := 0, y := 0, z := 0,
                  color := JVal.str "#3498db", size := 1, extra_data := none }],
      edges := [] } [JVal.list []] rfl rfl).1⟩

/-- C3 counterexample: a map node whose `x` field is a map makes `float()`
raise, so `convert_to_graph_schema` fails instead of returning a graph. -/
theorem C3_totality_cex :
    convert_to_graph_schema "g"
      [("nodes", JVal.list [JVal.dict [("x", JVal.dict [])]]), ("edges", JVal.list [])] =
      .error floatErrMsg := rfl

/-- C3 amended: coercion is total for every parsed map holding `nodes` and
`edges` sequences, provided each present numeric field (`x`, `y`, `z`,
`size`, the first three sequence entries, `source_id`, `target_id`,
`weight`) is `float()`/`int()`-coercible; a non-coercible present value
(such as a map or non-numeric string) raises out of the conversion
instead. -/
theorem C3_totality_amended (name : String) (gd : List (String × JVal)) (ns es : List JVal)
    (hn : jget gd "nodes" = some (.list ns)) (he : jget gd "edges" = some (.list es))
    (hns : ∀ v ∈ ns, nodeOk v = true) (hes : ∀ v ∈ es, edgeOk v = true) :
    ∃ g, convert_to_graph_schema name gd = .ok g := by
  obtain ⟨nodes, hnodes⟩ := coerceNodes_total ns 0 hns
  obtain ⟨edges, hedges⟩ := coerceEdges_total nodes.length es
      (fun v hv => coerceEdge_total v (hes v hv))
  refine ⟨{ name := name, nodes := nodes, edges := edges }, ?_⟩
  unfold convert_to_graph_schema
  rw [hn, he]
  dsimp only [Option.getD, pyIter]
  rw [hnodes]
  dsimp only
  rw [hedges]

/-- C3 witness: a `null` node element and an empty-dict edge element are
both coercible, so conversion succeeds. -/
theorem C3_totality_amended_witness :
    (jget [("nodes", JVal.list [JVal.null]), ("edges", JVal.list [JVal.dict []])] "nodes" =
        some (JVal.list [JVal.null])) ∧
    (∃ g, convert_to_graph_schema "g"
        [("nodes", JVal.list [JVal.null]), ("edges", JVal.list [JVal.dict []])] = .ok g) :=
  ⟨rfl, C3_totality_amended "g" _ [JVal.null] [JVal.dict []] rfl rfl
    (by intro v hv; rcases List.mem_singleton.mp hv with rfl; rfl)
    (by intro v hv; rcases List.mem_singleton.mp hv with rfl; rfl)⟩

/-- C9 counterexample: a map edge with both index keys absent but a
non-coercible `weight` raises out of normalization instead of being kept
as a self-loop. -/
theorem C9_default_indices_cex :
    jget [("weight", JVal.dict [])] "source_id" = none ∧
    jget [("weight", JVal.dict [])] "target_id" = none ∧
    convert_to_graph_schema "g"
      [("nodes", JVal.list [JVal.null]),
       ("edges", JVal.list [JVal.dict [("weight", JVal.dict [])]])] =
      .error floatErrMsg :=
  ⟨rfl, rfl, rfl⟩

/-- C9 amended: missing `source_id`/`target_id` keys default the indices
to 0, and whenever the node list is non-empty and normalization succeeds,
a map edge with both keys absent is kept as a self-loop on index 0; a
non-coercible remaining field instead raises, so success is required. -/
theorem C9_default_indices_amended (kvs : List (String × JVal))
    (hs : jget kvs "source_id" = none) (ht : jget kvs "target_id" = none) :
    (∀ e, coerceEdge (.dict kvs) = .ok (some e) → e.source_id = 0 ∧ e.target_id = 0) ∧
    (∀ (name : String) (nodes : List JVal) (g : GraphSchema), nodes ≠ [] →
      convert_to_graph_schema name
        [("nodes", JVal.list nodes), ("edges", JVal.list [JVal.dict kvs])] = .ok g →
      ∃ e, g.edges = [e] ∧ e.source_id = 0 ∧ e.target_id = 0) := by
  have hedge : ∀ (w : Rat), pyFloatE ((jget kvs "weight").getD (.float 1)) = .ok w →
      coerceEdge (.dict kvs) = .ok (some
        { source_id := 0, target_id := 0, weight := w,
          directed := pyTruthy ((jget kvs "directed").getD (.bool false)),
          color := (jget kvs "color").getD (.str "#95a5a6"),
          extra_data := some ((jget kvs "extra_data").getD .null) }) := by
    intro w hw
    rw [coerceEdge_dict_eq, hs, ht, Option.getD_none,
        show pyIntE (JVal.int 0) = Except.ok 0 from rfl]
    dsimp only
    rw [hw]
  have herr : ∀ (m : String), pyFloatE ((jget kvs "weight").getD (.float 1)) = .error m →
      coerceEdge (.dict kvs) = .error m := by
    intro m hw
    rw [coerceEdge_dict_eq, hs, ht, Option.getD_none,
        show pyIntE (JVal.int 0) = Except.ok 0 from rfl]
    dsimp only
    rw [hw]
  constructor
  · intro e h
    cases hw : pyFloatE ((jget kvs "weight").getD (.float 1)) with
    | error m => rw [herr m hw] at h; exact Except.noConfusion h
    | ok w =>
      rw [hedge w hw] at h
      cases h
      exact ⟨rfl, rfl⟩
  · intro name nodes g hne h
    unfold convert_to_graph_schema at h
    rw [show jget [("nodes", JVal.list nodes), ("edges", JVal.list [JVal.dict kvs])] "nodes" =
          some (JVal.list nodes) from rfl,
        show jget [("nodes", JVal.list nodes), ("edges", JVal.list [JVal.dict kvs])] "edges" =
          some (JVal.list [JVal.dict kvs]) from rfl] at h
    dsimp only [Option.getD, pyIter] at h
    cases h2 : coerceNodes 0 nodes with
    | error m => rw [h2] at h; exact Except.noConfusion h
    | ok nds =>
      rw [h2] at h
      dsimp only at h
      cases hw : pyFloatE ((jget kvs "weight").getD (.float 1)) with
      | error m =>
        rw [show coerceEdges nds.length [JVal.dict kvs] = .error m by
          simp only [coerceEdges]; rw [herr m hw]] at h
        exact Except.noConfusion h
      | ok w =>
        have hpos : (0 : Int) < (nds.length : Int) := by
          have h1 : 0 < nodes.length := List.length_pos.mpr hne
          have h2l : nds.length = nodes.length := (coerceNodes_spec nodes 0 nds h2).1
          omega
        rw [show coerceEdges nds.length [JVal.dict kvs] = .ok
              [{ source_id := 0, target_id := 0, weight := w,
                 directed := pyTruthy ((jget kvs "directed").getD (.bool false)),
                 color := (jget kvs "color").getD (.str "#95a5a6"),
                 extra_data := some ((jget kvs "extra_data").getD .null) }] by
            simp only [coerceEdges]; rw [hedge w hw]; dsimp only
            rw [if_pos ⟨le_refl (0 : Int), hpos, le_refl (0 : Int), hpos⟩]] at h
        dsimp only at h
        cases h
        exact ⟨_, rfl, rfl, rfl⟩

/-- C9 witness: the empty map edge, with one node present, is kept as the
self-loop `(0, 0)`. -/
theorem C9_default_indices_amended_witness :
    ∃ e, ({ name := "g",
            nodes := [{ label := JVal.str "Node 1", x := 0, y := 0, z := 0,
                        color := JVal.str "#3498db", size := 1, extra_data := none }],
            edges := [{ source_id := 0, target_id := 0, weight := 1, directed := false,
                        color := JVal.str "#95a5a6", extra_data := some JVal.null }] } :
          GraphSchema).edges = [e] ∧ e.source_id = 0 ∧ e.target_id = 0 :=
  (C9_default_indices_amended [] rfl rfl).2 "g" [JVal.null] _ (List.cons_ne_nil _ _) rfl

/-- C2 counterexample: a parsed map carrying `nodes` but not `edges` is
rejected by the shape check instead of proceeding. -/
theorem C2_shape_check_cex :
    normalize_success (fun _ => .ok (.dict [("nodes", .list [])])) "x" =
      .err "Result must contain \x27nodes\x27 and \x27edges\x27 keys" := rfl

/-- C2 amended: the shape stage accepts the parsed value exactly when it
is a map carrying both the `nodes` key and the `edges` key; a non-map is
reported as `Result must be a dictionary`, and a map missing either key
(not only both) is reported as the missing-keys error. -/
theorem C2_shape_check_amended (p : String → Except String JVal) (stdout : String) (v : JVal)
    (hne : pyStrip stdout ≠ "")
    (hp : p ((extract_json_line (pyStrip stdout)).getD (pyStrip stdout)) = .ok v) :
    (normalize_success p stdout = .ok v ↔
      ∃ kvs, v = .dict kvs ∧ (jget kvs "nodes").isSome = true ∧
        (jget kvs "edges").isSome = true) ∧
    ((∀ kvs, v ≠ .dict kvs) → normalize_success p stdout = .err "Result must be a dictionary") ∧
    (∀ kvs, v = .dict kvs →
      ((jget kvs "nodes").isSome = false ∨ (jget kvs "edges").isSome = false) →
      normalize_success p stdout =
        .err "Result must contain \x27nodes\x27 and \x27edges\x27 keys") := by
  refine ⟨⟨?_, ?_⟩, ?_, ?_⟩
  · intro h
    unfold normalize_success at h
    rw [if_neg hne, hp] at h
    dsimp only at h
    cases v with
    | dict kvs =>
      dsimp only at h
      by_cases hb : ((jget kvs "nodes").isSome && (jget kvs "edges").isSome) = true
      · rw [Bool.and_eq_true] at hb
        exact ⟨kvs, rfl, hb.1, hb.2⟩
      · rw [if_neg hb] at h
        exact NormResult.noConfusion h
    | null => exact NormResult.noConfusion h
    | bool b => exact NormResult.noConfusion h
    | int n => exact NormResult.noConfusion h
    | float q => exact NormResult.noConfusion h
    | str s => exact NormResult.noConfusion h
    | list xs => exact NormResult.noConfusion h
  · rintro ⟨kvs, rfl, h1, h2⟩
    unfold normalize_success
    rw [if_neg hne, hp]
    dsimp only
    rw [if_pos (by rw [Bool.and_eq_true]; exact ⟨h1, h2⟩)]
  · intro hnd
    unfold normalize_success
    rw [if_neg hne, hp]
    dsimp only
    cases v with
    | dict kvs => exact absurd rfl (hnd kvs)
    | null => rfl
    | bool b => rfl
    | int n => rfl
    | float q => rfl
    | str s => rfl
    | list xs => rfl
  · intro kvs hv hor
    subst hv
    unfold normalize_success
    rw [if_neg hne, hp]
    dsimp only
    rcases hor with h | h <;> simp [h]

/-- C2 witness: a map with both keys passes the shape check. -/
theorem C2_shape_check_amended_witness :
    (pyStrip "x" ≠ "" ∧
      (fun (_ : String) =>
          (Except.ok (JVal.dict [("nodes", JVal.list []), ("edges", JVal.list [])]) :
            Except String JVal))
        ((extract_json_line (pyStrip "x")).getD (pyStrip "x")) =
        .ok (JVal.dict [("nodes", JVal.list []), ("edges", JVal.list [])])) ∧
    (normalize_success
        (fun _ => Except.ok (JVal.dict [("nodes", JVal.list []), ("edges", JVal.list [])]))
        "x" = .ok (JVal.dict [("nodes", JVal.list []), ("edges", JVal.list [])]) ↔
      ∃ kvs, JVal.dict [("nodes", JVal.list []), ("edges", JVal.list [])] = .dict kvs ∧
        (jget kvs "nodes").isSome = true ∧ (jget kvs "edges").isSome = true) :=
  ⟨⟨by decide, rfl⟩,
   (C2_shape_check_amended
      (fun _ => Except.ok (JVal.dict [("nodes", JVal.list []), ("edges", JVal.list [])]))
      "x" (JVal.dict [("nodes", JVal.list []), ("edges", JVal.list [])])
      (by decide) rfl).1⟩

/-- C4 counterexample: `import numpy.linalg` is denylist-clean and its
top-level component `numpy` is allow-listed, yet validation rejects it,
because plain imports are keyed on the full dotted name. -/
theorem C4_import_keying_cex :
    validate_code "import numpy.linalg" (Except.ok [ImportStmt.imp ["numpy.linalg"]]) =
      Verdict.rejected "Import not allowed: numpy.linalg" ∧
    topLevel "numpy.linalg" = "numpy" ∧
    ALLOWED_IMPORTS.contains "numpy" = true ∧
    firstBlocked "import numpy.linalg" = none :=
  ⟨rfl, rfl, rfl, rfl⟩

/-- C4 amended: on denylist-clean, syntactically valid source, validation
accepts exactly when every plain import has its full dotted alias name in
the allow-list and every from-import has its top-level component in the
allow-list (relative from-imports always pass); every import rejection
reads `Import not allowed: <full module name>`. -/
theorem C4_import_keying_amended (code : String) (imports : List ImportStmt)
    (hclean : firstBlocked code = none) :
    (validate_code code (.ok imports) = .accepted ↔ imports.all importCheckSpec = true) ∧
    (∀ r, validate_code code (.ok imports) = .rejected r →
      ∃ n, r = "Import not allowed: " ++ n) := by
  have hv : validate_code code (.ok imports) =
      (match checkImports imports with
       | some reason => Verdict.rejected reason
       | none => Verdict.accepted) := by
    unfold validate_code
    rw [hclean]
  constructor
  · rw [hv]
    cases hc : checkImports imports with
    | some reason =>
      dsimp only
      constructor
      · intro habs; exact Verdict.noConfusion habs
      · intro hall
        rw [← checkImports_none_iff] at hall
        rw [hall] at hc
        exact Option.noConfusion hc
    | none =>
      dsimp only
      constructor
      · intro _; exact (checkImports_none_iff imports).mp hc
      · intro _; rfl
  · intro r h
    rw [hv] at h
    cases hc : checkImports imports with
    | some reason =>
      rw [hc] at h
      dsimp only at h
      have hr : reason = r := by cases h; rfl
      subst hr
      exact checkImports_some_form imports reason hc
    | none =>
      rw [hc] at h
      exact Verdict.noConfusion h

/-- C4 witness: `import json` plus `from numpy.linalg import ...` is
accepted, both forms passing their respective keying. -/
theorem C4_import_keying_amended_witness :
    firstBlocked "import json" = none ∧
    (validate_code "import json"
        (.ok [ImportStmt.imp ["json"], ImportStmt.impFrom (some "numpy.linalg")]) =
          .accepted ↔
      [ImportStmt.imp ["json"], ImportStmt.impFrom (some "numpy.linalg")].all
        importCheckSpec = true) :=
  ⟨rfl, (C4_import_keying_amended "import json"
    [ImportStmt.imp ["json"], ImportStmt.impFrom (some "numpy.linalg")] rfl).1⟩

/-- C5: any source containing a denylisted token (case-insensitive
substring) is rejected with `Blocked operation detected: <token>` for the
first matching token in list order, and `execute_code` returns before the
temporary-file/subprocess block, so no process is spawned. -/
theorem C5_denylist_rejects (code : String) (parse : ParseResult) (kw : String)
    (hmem : kw ∈ BLOCKED_KEYWORDS) (hmatch : tokenMatches kw code = true) :
    ∃ (i : Nat) (hi : i < BLOCKED_KEYWORDS.length),
      tokenMatches (BLOCKED_KEYWORDS.get ⟨i, hi⟩) code = true ∧
      (∀ (j : Nat) (hj : j < BLOCKED_KEYWORDS.length), j < i →
        tokenMatches (BLOCKED_KEYWORDS.get ⟨j, hj⟩) code = false) ∧
      validate_code code parse =
        .rejected ("Blocked operation detected: " ++ BLOCKED_KEYWORDS.get ⟨i, hi⟩) ∧
      execute_code_gate code parse =
        .reject ("Blocked operation detected: " ++ BLOCKED_KEYWORDS.get ⟨i, hi⟩) := by
  obtain ⟨y, hy⟩ :=
    find_first_exists (fun k => tokenMatches k code) BLOCKED_KEYWORDS kw hmem hmatch
  obtain ⟨hpy, i, hi, hget, hmin⟩ :=
    find_first_spec (fun k => tokenMatches k code) BLOCKED_KEYWORDS y hy
  have hfb : firstBlocked code = some (BLOCKED_KEYWORDS.get ⟨i, hi⟩) := by
    unfold firstBlocked
    rw [hy, hget]
  have hval : validate_code code parse =
      .rejected ("Blocked operation detected: " ++ BLOCKED_KEYWORDS.get ⟨i, hi⟩) := by
    unfold validate_code
    rw [hfb]
  refine ⟨i, hi, ?_, hmin, hval, ?_⟩
  · rw [hget]; exact hpy
  · unfold execute_code_gate
    rw [hval]

/-- C5 witness: the spec scenario `import os` followed by a print is
rejected by the first denylist token. -/
theorem C5_denylist_rejects_witness :
    ("import os" ∈ BLOCKED_KEYWORDS ∧
      tokenMatches "import os" "import os\nprint(\"hi\")" = true) ∧
    (∃ (i : Nat) (hi : i < BLOCKED_KEYWORDS.length),
      tokenMatches (BLOCKED_KEYWORDS.get ⟨i, hi⟩) "import os\nprint(\"hi\")" = true ∧
      (∀ (j : Nat) (hj : j < BLOCKED_KEYWORDS.length), j < i →
        tokenMatches (BLOCKED_KEYWORDS.get ⟨j, hj⟩) "import os\nprint(\"hi\")" = false) ∧
      validate_code "import os\nprint(\"hi\")" (.ok []) =
        .rejected ("Blocked operation detected: " ++ BLOCKED_KEYWORDS.get ⟨i, hi⟩) ∧
      execute_code_gate "import os\nprint(\"hi\")" (.ok []) =
        .reject ("Blocked operation detected: " ++ BLOCKED_KEYWORDS.get ⟨i, hi⟩)) :=
  ⟨⟨by decide, by rfl⟩,
   C5_denylist_rejects "import os\nprint(\"hi\")" (.ok []) "import os" (by decide) (by rfl)⟩

/-- C6: on non-empty stripped output, the payload is the last line whose
stripped text begins with a brace or bracket (everything after it fails
that test); when no line qualifies the whole stripped output is the
payload; and a failing JSON parse yields the malformed-output error value
rather than an exception. -/
theorem C6_payload_selection (stdout : String) (jsonParse : String → Except String JVal)
    (hne : pyStrip stdout ≠ "") :
    (∀ l, extract_json_line (pyStrip stdout) = some l →
      ∃ raw as bs, splitLines (pyStrip stdout) = as ++ raw :: bs ∧ l = pyStrip raw ∧
        beginsJson (pyStrip raw) = true ∧ ∀ y ∈ bs, beginsJson (pyStrip y) = false) ∧
    (extract_json_line (pyStrip stdout) = none →
      (∀ y ∈ splitLines (pyStrip stdout), beginsJson (pyStrip y) = false) ∧
      (extract_json_line (pyStrip stdout)).getD (pyStrip stdout) = pyStrip stdout) ∧
    (∀ e, jsonParse ((extract_json_line (pyStrip stdout)).getD (pyStrip stdout)) = .error e →
      normalize_success jsonParse stdout = .err ("Failed to parse output as JSON: " ++ e)) := by
  refine ⟨?_, ?_, ?_⟩
  · intro l hl
    unfold extract_json_line at hl
    cases hf : (splitLines (pyStrip stdout)).reverse.find? (fun s => beginsJson (pyStrip s)) with
    | none => rw [hf] at hl; exact Option.noConfusion hl
    | some raw =>
      rw [hf] at hl
      dsimp only [Option.map] at hl
      obtain ⟨hp, as, bs, heq, hbs⟩ :=
        lastFind_spec (fun s => beginsJson (pyStrip s)) (splitLines (pyStrip stdout)) raw hf
      exact ⟨raw, as, bs, heq, (Option.some.inj hl).symm, hp, hbs⟩
  · intro hnone
    have hf : (splitLines (pyStrip stdout)).reverse.find?
        (fun s => beginsJson (pyStrip s)) = none := by
      cases hf2 : (splitLines (pyStrip stdout)).reverse.find?
          (fun s => beginsJson (pyStrip s)) with
      | none => rfl
      | some raw =>
        unfold extract_json_line at hnone
        rw [hf2] at hnone
        exact Option.noConfusion hnone
    refine ⟨?_, by rw [hnone]; rfl⟩
    intro y hy
    exact find_none_all _ _ hf y (List.mem_reverse.mpr hy)
  · intro e he
    unfold normalize_success
    rw [if_neg hne, he]

/-- C6 witness: a parse failure on the selected line produces the
malformed-output error value. -/
theorem C6_payload_selection_witness :
    pyStrip "hello\n[1]" ≠ "" ∧
    normalize_success (fun _ => Except.error "boom") "hello\n[1]" =
      .err ("Failed to parse output as JSON: " ++ "boom") :=
  ⟨by decide,
   (C6_payload_selection "hello\n[1]" (fun _ => Except.error "boom") (by decide)).2.2
     "boom" rfl⟩
